import Mathlib

/-!
Verification development for the 9fans 9P2000 file-server runtime
(`plan9/server`), its static back-end (`plan9/server/staticfsys`) and its
clone wrapper (`plan9/server/clonefsys`).

The repository contains several competing drafts of the same files.  Where
two drafts conflict, this development follows the draft that the rest of the
code base is written against: the second draft of `server.go` (the one with
per-fid reference counts, `xtag` records and a `handleWrite` operation,
which matches the `Fsys` interface in the `fsys.go` part and is the one the
tests instantiate), the `Params[Context, Content]` draft of the static
back-end, and the `Provider`-based draft of the clone wrapper.

Go machine integers are modelled as `Nat` (unsigned) or `Int` (signed) with
explicit wrapping where Go arithmetic can overflow.  Byte slices are
`List Nat`.  Fallible Go functions return `Except`/`Option`; a Go runtime
panic is modelled as an explicit outcome.
-/

/-- Modelled from the spec: the 13-byte Qid of the external `plan9` message
package (`Type`, `Version`, `Path`); `QTDIR = 0x80` marks directories. -/
structure Qid where
  typ : Nat
  version : Nat
  path : Nat
deriving DecidableEq

/-- Modelled from the spec: `Qid.IsDir` of the external `plan9` package —
the `QTDIR` (0x80) bit of `Type` is set. -/
def Qid.isDir (q : Qid) : Bool :=
  q.typ &&& 0x80 != 0

/-- Modelled from the spec: the sentinel fid value `NOFID = 0xFFFFFFFF`. -/
def NOFID : Nat := 0xFFFFFFFF

/-- Modelled from the spec: open-mode access classes `OREAD=0`, `OWRITE=1`,
`ORDWR=2`, `OEXEC=3`; `OTRUNC = 0x10` is an upper flag bit. -/
def OREAD : Nat := 0
def OWRITE : Nat := 1
def ORDWR : Nat := 2
def OEXEC : Nat := 3
def OTRUNC : Nat := 0x10

/-- Go `int64`/`int` wrap-around of an exact integer sum (64-bit
two's-complement arithmetic). -/
def wrap64 (x : Int) : Int :=
  (x + 9223372036854775808) % 18446744073709551616 - 9223372036854775808

/-- Outcome of a Go function call that may hit a runtime panic. -/
inductive GoResult (α : Type) where
  | ok (val : α)
  | crash
deriving DecidableEq

/-!
### `staticfsys` file utilities: the bounded in-memory buffer file

Embedding of `bufFile` from the `file.go` part of package `staticfsys`
(`src/unnamed/part_004`).  `maxSize` is a Go `int` (modelled as `Int`),
offsets are `int64` (modelled as `Int`), and the contents are a byte slice
(modelled as `List Nat`).
-/

/-- The bounded in-memory read/write buffer file (`bufFile` in `file.go`). -/
structure bufFile where
  maxSize : Int
  buf : List Nat
deriving DecidableEq

/-- Result of a read: the count and bytes read, plus an optional error. -/
inductive ReadErr where
  | eof
  | other (msg : String)
deriving DecidableEq

/-- `bufFile.WriteAt(buf, off)`: returns `(n, err)` and the updated file,
or a runtime panic.

Direct translation of the Go method: a negative offset errors; the size
guard compares the *wrapping* `int64` sum `off+int64(len(buf))` against
`maxSize`, so an end position at or beyond `2^63` wraps negative and slips
past the guard; the growth test `start+len(buf) > len(f.buf)` uses the
same wrapping `int` sum (and in the wrap region is likewise false, so the
backing slice is not extended); finally `copy(f.buf[start:], buf)` panics
(`.crash`) when `start` exceeds the backing slice's length, and otherwise
copies `min(len(buf), len(f.buf)-start)` bytes in at `start`. -/
def bufFile.WriteAt (f : bufFile) (b : List Nat) (off : Int) :
    GoResult ((Nat × Option String) × bufFile) :=
  if off < 0 then .ok ((0, some "negative file offset"), f)
  else if wrap64 (off + b.length) > f.maxSize then
    .ok ((0, some "max file size exceeded"), f)
  else
    let start := off.toNat
    let buf1 :=
      if wrap64 ((start : Int) + b.length) > (f.buf.length : Int) then
        f.buf ++ List.replicate (start + b.length - f.buf.length) 0
      else
        f.buf
    if buf1.length < start then .crash
    else
      .ok ((b.length, none),
        { f with buf := buf1.take start ++ b.take (min b.length (buf1.length - start)) ++
            buf1.drop (start + min b.length (buf1.length - start)) })

/-- `bufFile.ReadAt(buf, off)` with a destination buffer of length
`dstLen`: returns the count and the bytes read, plus an optional error.

Direct translation of the Go method: reading at or past the end returns
`(0, io.EOF)`, a negative offset errors, otherwise `copy` reads
`min dstLen (len(buf) - off)` bytes starting at `off`. -/
def bufFile.ReadAt (f : bufFile) (dstLen : Nat) (off : Int) :
    (Nat × List Nat) × Option ReadErr :=
  if (f.buf.length : Int) ≤ off then
    ((0, []), some .eof)
  else if off < 0 then
    ((0, []), some (.other "negative file offset"))
  else
    let data := (f.buf.drop off.toNat).take dstLen
    ((data.length, data), none)

/-!
### The static back-end's `Readdir`

Embedding of `fsys.Readdir` from `staticfsys` (`static.go` /
`src/unnamed/part_005`, both drafts have the identical body).  The entries
of the current directory are abstracted to an arbitrary element type; the
destination slice `dir` is represented by its length, and writing past its
end is a Go runtime panic.
-/

/-- `fsys.Readdir(ctx, f, dir, index)` of the static back-end: clamps
`index` to `len(entries)`, then executes
`for i, e := range entries[index:] { dir[i] = fs.makeDir(e) }` and returns
`len(entries) - index`.  The loop writes `dir[i]` for every `i` below
`len(entries) - index`, so when that exceeds `dirLen = len(dir)` the write
`dir[dirLen]` is out of range: a runtime panic (`.crash`).  On success the
result is the list written into `dir` (here the raw entries; `makeDir` is a
per-entry conversion irrelevant to bounds) and the returned count. -/
def staticReaddir {α : Type} (entries : List α) (dirLen : Nat) (index : Nat) :
    GoResult (List α × Nat) :=
  let index := if entries.length ≤ index then entries.length else index
  let toWrite := entries.drop index
  if dirLen < toWrite.length then .crash
  else .ok (toWrite, entries.length - index)

/-!
### Decimal printing and parsing

`fmt.Sprint` on an `int` and `strconv.Atoi` (Go standard library), used by
the clone wrapper's `Walk` and by the server's error messages.
-/

/-- The ASCII digit for a value below ten. -/
def digitChar : Nat → Char
  | 0 => '0' | 1 => '1' | 2 => '2' | 3 => '3' | 4 => '4'
  | 5 => '5' | 6 => '6' | 7 => '7' | 8 => '8' | _ => '9'

/-- Decimal digits of `n`, most significant first, prepended to `acc`.
Structural recursion on a fuel argument (so the definition reduces
definitionally); `fuel ≥ n` always suffices, and the fuel-exhausted arm
coincides with the single-digit arm at `n = 0`, the only value reachable
with exhausted fuel from `natCanonList`. -/
def natCanonAux : Nat → Nat → List Char → List Char
  | 0, n, acc => digitChar n :: acc
  | fuel + 1, n, acc =>
    if n < 10 then digitChar n :: acc
    else natCanonAux fuel (n / 10) (digitChar (n % 10) :: acc)

/-- Canonical decimal digits of a natural number. -/
def natCanonList (n : Nat) : List Char := natCanonAux n n []

/-- Canonical decimal representation of a natural number (`fmt.Sprint`). -/
def natCanon (n : Nat) : String := String.mk (natCanonList n)

/-- Canonical decimal digits of an integer, with a leading `-` sign when
negative. -/
def intCanonList (i : Int) : List Char :=
  if i < 0 then '-' :: natCanonList i.natAbs else natCanonList i.toNat

/-- `fmt.Sprint` on a Go `int`: the canonical decimal representation. -/
def intCanon (i : Int) : String := String.mk (intCanonList i)

/-- The numeric value of an ASCII digit character, if it is one. -/
def digitVal (c : Char) : Option Nat :=
  if 48 ≤ c.toNat ∧ c.toNat ≤ 57 then some (c.toNat - 48) else none

/-- Accumulating base-10 parse; fails at the first non-digit. -/
def parseUintAux : List Char → Nat → Option Nat
  | [], acc => some acc
  | c :: cs, acc =>
    match digitVal c with
    | none => none
    | some d => parseUintAux cs (acc * 10 + d)

/-- Parse a non-empty all-digit string. -/
def parseUint (cs : List Char) : Option Nat :=
  match cs with
  | [] => none
  | _ => parseUintAux cs 0

/-- `strconv.Atoi` (Go standard library) on a 64-bit platform: an optional
sign followed by one or more digits, rejecting values outside the `int64`
range `[-2^63, 2^63)`. -/
def goAtoiList (cs : List Char) : Option Int :=
  match cs with
  | [] => none
  | c :: rest =>
    if c = '-' then
      (parseUint rest).bind fun n =>
        if (n : Int) ≤ 9223372036854775808 then some (-(n : Int)) else none
    else if c = '+' then
      (parseUint rest).bind fun n =>
        if (n : Int) < 9223372036854775808 then some (n : Int) else none
    else
      (parseUint cs).bind fun n =>
        if (n : Int) < 9223372036854775808 then some (n : Int) else none

/-- `strconv.Atoi` on a `String`. -/
def goAtoi (s : String) : Option Int := goAtoiList s.data

/-!
### The clone wrapper's `Walk`

Embedding of `fsys.Walk` from the `Provider`-based draft of
`clonefsys/clone.go` (the draft the spec and the tests use).
-/

/-- The clone wrapper's fid kind tag (`fidType`). -/
inductive CloneKind where
  | root
  | dir
  | rest
deriving DecidableEq

/-- The clone wrapper's per-fid state (`Fid[F, C0]`): outer attach context,
kind tag, subtree id, and the inner back-end fid (`none` is the Go zero
value, before any inner fid has been attached). -/
structure CloneFid (F C0 : Type) where
  c : C0
  kind : CloneKind
  id : Int
  fid : Option F
deriving DecidableEq

/-- `clonefsys.Provider`: `Get(id)` returns the inner attach context for an
id and whether that id exists (`Len` is not consulted by `Walk`). -/
structure Provider (C : Type) where
  get : Int → Option C

/-- The operations of the inner back-end (`server.FsysInner`) that the
clone wrapper's `Walk` invokes. -/
structure InnerFsys (F C1 : Type) where
  attachInner : C1 → Except String F
  walkInner : F → String → Except String F

/-- Outcome of a Go call that can also hit a runtime panic. -/
inductive WalkRes (α : Type) where
  | ok (f : α)
  | err (e : String)
  | crash
deriving DecidableEq

/-- `fsys.Walk(ctx, f, name)` of the clone wrapper.  `".."` goes to
`walkDotdot`, which is `panic("TODO")`.  At the root, the name is parsed
with `strconv.Atoi` and required to be canonical
(`fmt.Sprint(id) != name` rejects), the provider is asked for the id, and
the inner back-end's `AttachInner` seeds the inner fid of the resulting
`dir`-kind fid.  At `dir`/`rest` the walk delegates to the inner back-end
and the fid becomes `rest`-kind. -/
def cloneWalk {F C0 C1 : Type} (inner : InnerFsys F C1)
    (provider : C0 → Provider C1) (f : CloneFid F C0) (name : String) :
    WalkRes (CloneFid F C0) :=
  if name = ".." then .crash
  else
    match f.kind with
    | .root =>
      match goAtoi name with
      | none => .err "file not found"
      | some id =>
        if intCanon id ≠ name then .err "file not found"
        else
          match (provider f.c).get id with
          | none => .err "file not found"
          | some c1 =>
            match inner.attachInner c1 with
            | .error e => .err e
            | .ok fv => .ok { c := f.c, kind := .dir, id := id, fid := some fv }
    | .dir | .rest =>
      match f.fid with
      | none => .crash -- unreachable: dir/rest fids always carry an inner fid
      | some fv =>
        match inner.walkInner fv name with
        | .error e => .err e
        | .ok fv' => .ok { f with fid := some fv', kind := .rest }

/-!
### The server runtime (`Serve`, second draft of `server.go`)

A sequential embedding of the per-connection server: handlers that the Go
code runs in goroutines are executed inline, one message at a time, so the
per-fid `rwMutex` (whose implementation is not part of the sources) always
succeeds except when a tag tries to acquire the fid it has itself just
created.  Back-end calls are recorded as events; `fs.Close()` — called
exactly at the single `defer fs.Close()` site of `Serve` — is a separate
trace constructor appended when `Serve` returns.

Directory entries are represented by their `Dir.Append` serialisations
(the external `plan9` codec), i.e. as the byte strings the entries
contribute to an `Rread` payload.
-/

/-- Modelled from the spec: the 9P2000 message-type constants of the
external `plan9` package. -/
inductive MsgType where
  | tversion | rversion | tauth | rauth | tattach | rattach | rerror
  | tflush | rflush | twalk | rwalk | topen | ropen | tcreate | rcreate
  | tread | rread | twrite | rwrite | tclunk | rclunk | tremove | rremove
  | tstat | rstat | twstat | rwstat
deriving DecidableEq

/-- The errors the server runtime itself produces (Go builds them with
`errors.New`/`fmt.Errorf`; the constructor arguments are the format
arguments and `SrvErr.message` reproduces the exact text). -/
inductive SrvErr where
  | badOpType
  | fidInUse (id : Nat)
  | invalidFid (id : Nat)
  | fidLocked
  | cannotWalkOpen
  | alreadyOpen
  | notOpen
  | perm
  | offsetTooBig
  | cannotWriteMode (mode : Nat)
  | cannotWriteDir
  | badDirOffset (got want : Int)
  | dirCountTooSmall
  | rootNotDir
  | backend (msg : String)
deriving DecidableEq

/-- The exact `Ename` text of each server error (`%d`/`%v` arguments
rendered in decimal; `.badOpType`'s `%v` message-type argument elided). -/
def SrvErr.message : SrvErr → String
  | .badOpType => "bad operation type"
  | .fidInUse id => "fid " ++ natCanon id ++ " already in use"
  | .invalidFid id => "invalid fid " ++ natCanon id
  | .fidLocked => "fid in use"
  | .cannotWalkOpen => "cannot walk open fid"
  | .alreadyOpen => "fid is already open"
  | .notOpen => "fid not open"
  | .perm => "permission denied"
  | .offsetTooBig => "offset too big"
  | .cannotWriteMode m => "cannot write; omode " ++ natCanon m
  | .cannotWriteDir => "cannot write to a directory"
  | .badDirOffset got want =>
    "illegal read offset in directory (got " ++ intCanon got ++ " want " ++
      intCanon want ++ ")"
  | .dirCountTooSmall => "directory read count too small for directory entry"
  | .rootNotDir => "root is not a directory"
  | .backend s => s

/-- Modelled from the spec: the `plan9.Fcall` message record of the
external message package, with Go zero values as field defaults.  `err`
holds the `Ename` of an `Rerror` (Go stores `err.Error()`, i.e.
`SrvErr.message`); `stat` holds marshalled `Dir` bytes. -/
structure Fcall where
  typ : MsgType
  tag : Nat := 0
  fid : Nat := 0
  afid : Nat := 0
  newfid : Nat := 0
  uname : String := ""
  aname : String := ""
  version : String := ""
  msize : Nat := 0
  mode : Nat := 0
  offset : Nat := 0
  count : Nat := 0
  data : List Nat := []
  wname : List String := []
  wqid : List Qid := []
  qid : Qid := ⟨0, 0, 0⟩
  iounit : Nat := 0
  err : Option SrvErr := none
  stat : List Nat := []
deriving DecidableEq

/-- The runtime's per-fid record (`fid[Fid]`, second draft): refcount,
back-end fid value, attach/open state, and the directory-read continuation
state.  `isOpen` is the Go field `open` (a keyword in Lean). -/
structure FidRec (F : Type) where
  id : Nat
  refCount : Int
  fid : F
  attached : Bool := false
  isOpen : Bool := false
  openMode : Nat := 0
  iounit : Nat := 0
  dirOffset : Int := 0
  dirIndex : Nat := 0
  dirEntries : List (List Nat) := []
deriving DecidableEq

/-- A freshly created fid record: Go allocates `&fid[Fid]{id: id, ...}`
with zero values (the back-end fid is the zero `F`, modelled by
`default`). -/
def FidRec.new {F : Type} [Inhabited F] (id : Nat) (refCount : Int) :
    FidRec F :=
  { id := id, refCount := refCount, fid := default }

/-- One back-end call, as recorded in the trace. -/
inductive Ev (F : Type) where
  | attachB
  | statB
  | cloneB
  | walkB (f : F) (name : String)
  | clunk (f : F)
  | openB (f : F) (mode : Nat)
  | readdirB (f : F) (index : Nat)
  | readAtB (f : F) (len : Nat) (off : Int)
  | writeAtB (f : F) (len : Nat) (off : Int)
deriving DecidableEq

/-- Whether an event is a back-end `Clunk` call. -/
def Ev.isClunk {F : Type} : Ev F → Bool
  | .clunk _ => true
  | _ => false

/-- A trace element of a whole `Serve` run: a back-end call or the single
`fs.Close()` of `Serve`'s `defer` (the only `Close` call site in the
source, hence a separate constructor). -/
inductive TEv (F : Type) where
  | bk (e : Ev F)
  | close
deriving DecidableEq

/-- Whether a trace element is the `fs.Close()` call. -/
def TEv.isClose {F : Type} : TEv F → Bool
  | .close => true
  | _ => false

/-- The back-end (`Fsys[Fid]`, pointer-style interface of the second
draft) as pure functions: operations that mutate the fid through its
pointer return the updated fid value.  `readdirF` takes the destination
capacity and the entry index and returns the serialised entries written;
`statF` folds `Stat`, the `Qid` overwrite and `Dir.Bytes` (external codec)
into one function returning the marshalled bytes. -/
structure Backend (F : Type) where
  attach : Option F → String → String → Except String F
  qidOf : F → Qid
  cloneF : F → F
  walkF : F → String → Except String F
  openF : F → Nat → Except String (Nat × F)
  readAtF : F → Nat → Int → (List Nat × Option ReadErr)
  writeAtF : F → List Nat → Int → Except String Nat
  readdirF : F → Nat → Nat → Except String (List (List Nat))
  statF : F → Except String (List Nat)

/-- The mutable per-connection server state: the fid table, records
removed from the table but still referenced (Go keeps them alive through
pointers until their refcount drops), the back-end call events, and the
replies written so far.  `crashed` marks a Go runtime panic in a handler
(which kills the process, so `Serve` never returns); `stuck` is a model
artifact marking exhaustion of the directory-read loop fuel (the Go loop
would not have terminated). -/
structure SrvState (F : Type) where
  fids : List (Nat × FidRec F) := []
  detached : List (Nat × FidRec F) := []
  events : List (Ev F) := []
  replies : List Fcall := []
  crashed : Bool := false
  stuck : Bool := false
deriving DecidableEq

/-- Association-list lookup (the Go `map[uint32]*fid[Fid]`). -/
def aget {α : Type} : List (Nat × α) → Nat → Option α
  | [], _ => none
  | (k, v) :: r, i => if k = i then some v else aget r i

/-- Association-list update of an existing key. -/
def aset {α : Type} : List (Nat × α) → Nat → α → List (Nat × α)
  | [], _, _ => []
  | (k, v) :: r, i, x => if k = i then (k, x) :: aset r i x else (k, v) :: aset r i x

/-- Association-list deletion. -/
def adel {α : Type} : List (Nat × α) → Nat → List (Nat × α)
  | [], _ => []
  | (k, v) :: r, i => if k = i then adel r i else (k, v) :: adel r i

/-- Find a live record: in the fid table, or removed but still
referenced. -/
def getRec {F : Type} (st : SrvState F) (id : Nat) : Option (FidRec F) :=
  match aget st.fids id with
  | some r => some r
  | none => aget st.detached id

/-- Write a record back wherever it lives. -/
def putRec {F : Type} (st : SrvState F) (id : Nat) (r : FidRec F) :
    SrvState F :=
  if (aget st.fids id).isSome then { st with fids := aset st.fids id r }
  else { st with detached := aset st.detached id r }

/-- Update a record in place, if it exists. -/
def putRecOpt {F : Type} (st : SrvState F) (id : Nat)
    (g : FidRec F → FidRec F) : SrvState F :=
  match getRec st id with
  | some r => putRec st id (g r)
  | none => st

/-- Record one back-end call. -/
def emit {F : Type} (st : SrvState F) (e : Ev F) : SrvState F :=
  { st with events := st.events ++ [e] }

/-- `srv.releaseFid`: drop one reference; when the count reaches zero on an
attached fid, the back-end `Clunk` runs. -/
def releaseFid {F : Type} (st : SrvState F) (id : Nat) : SrvState F :=
  match getRec st id with
  | none => st -- unreachable: Go would dereference a nil pointer
  | some r =>
    let r' := { r with refCount := r.refCount - 1 }
    let st := putRec st id r'
    if r'.refCount = 0 ∧ r'.attached then emit st (.clunk r'.fid) else st

/-- `srv.delFid`: remove the record from the fid table (panicking, as the
Go code does, if it is not there) and drop the table's reference. -/
def delFid {F : Type} (st : SrvState F) (id : Nat) : SrvState F :=
  match aget st.fids id with
  | none => { st with crashed := true }
  | some r =>
    let st := { st with fids := adel st.fids id,
                        detached := (id, r) :: st.detached }
    releaseFid st id

/-- The tag record (`xtag[Fid]`): the message, the existing fid (by id)
with its lock mode, and the newly created fid, if any. -/
structure XTag where
  m : Fcall
  fidId : Option Nat := none
  excl : Bool := false
  newFidId : Option Nat := none
deriving DecidableEq

/-- `srv.releaseTag`: unlock and release the tag's fids; on failure a newly
created fid is removed from the table. -/
def releaseTag {F : Type} (st : SrvState F) (t : XTag) (success : Bool) :
    SrvState F :=
  let st :=
    match t.fidId with
    | some i => releaseFid st i
    | none => st
  match t.newFidId with
  | none => st
  | some j =>
    let st := releaseFid st j
    if success then st else delFid st j

/-- `srv.reply`: stamp the request's tag onto the reply, decide failure
exactly as the source does — `m.Type == Rerror || m.Type == Rwalk &&
len(m.Wqid) < len(m.Wname)` computed on the *reply* message — release the
tag accordingly, and send the reply. -/
def reply {F : Type} (st : SrvState F) (t : XTag) (r : Fcall) : SrvState F :=
  let r := { r with tag := t.m.tag }
  let fail : Bool :=
    (r.typ == .rerror) || ((r.typ == .rwalk) && decide (r.wqid.length < r.wname.length))
  let st := releaseTag st t (!fail)
  { st with replies := st.replies ++ [r] }

/-- `srv.replyError`. -/
def replyError {F : Type} (st : SrvState F) (t : XTag) (e : SrvErr) :
    SrvState F :=
  reply st t { typ := .rerror, err := some e }

/-- `srv.initTag`, step 2: resolve and lock the existing fid the message
refers to.  The per-fid `rwMutex` is not among the sources; modelled from
the spec for sequential execution: an acquisition fails exactly when the
tag itself already holds the target exclusively, i.e. when the target is
the tag's own newly created fid. -/
def initTagExisting {F : Type} (st : SrvState F) (t : XTag) (m : Fcall) :
    SrvState F × XTag × Option SrvErr :=
  let target : Option (Option Nat) :=
    match m.typ with
    | .tversion | .tauth | .tflush => some none
    | .tattach => some (if m.afid = NOFID then none else some m.afid)
    | _ => if m.fid = NOFID then none else some (some m.fid)
  match target with
  | none => (st, t, some (.invalidFid m.fid))
  | some none => (st, t, none)
  | some (some fid) =>
    match aget st.fids fid with
    | none => (st, t, some (.invalidFid fid))
    | some r =>
      let excl : Bool :=
        match m.typ with
        | .topen | .tremove | .tcreate | .tclunk => true
        | .twalk => m.fid == m.newfid
        | _ => false
      if t.newFidId = some fid then (st, t, some .fidLocked)
      else
        let st := putRec st fid { r with refCount := r.refCount + 1 }
        (st, { t with fidId := some fid, excl := excl }, none)

/-- `srv.newTag`/`srv.initTag`: create the new fid record implied by the
message (refusing an id already in use), then resolve and lock the
existing fid.  On error the partially initialised tag is returned so that
`replyError` can release what was created. -/
def initTag {F : Type} [Inhabited F] (st : SrvState F) (m : Fcall) :
    SrvState F × XTag × Option SrvErr :=
  let t : XTag := { m := m }
  let nfid : Nat :=
    match m.typ with
    | .tauth => m.afid
    | .twalk => if m.newfid ≠ m.fid then m.newfid else NOFID
    | .tattach => m.fid
    | _ => NOFID
  if nfid ≠ NOFID then
    if (aget st.fids nfid).isSome then (st, t, some (.fidInUse nfid))
    else
      let st := { st with fids := (nfid, FidRec.new nfid 2) :: st.fids }
      initTagExisting st { t with newFidId := some nfid } m
  else initTagExisting st t m

/-- The walk loop of `srv.walk`: `fs.Walk` each name in turn on the
working fid, collecting one Qid per success; on failure the working fid is
clunked and the error returned with the Qids gathered so far. -/
def walkLoop {F : Type} (B : Backend F) (st : SrvState F) (cur : F) :
    List String → List Qid → SrvState F × F × List Qid × Option String
  | [], qids => (st, cur, qids, none)
  | name :: rest, qids =>
    let st := emit st (.walkB cur name)
    match B.walkF cur name with
    | .error e => (emit st (.clunk cur), cur, qids, some e)
    | .ok cur' => walkLoop B st cur' rest (qids ++ [B.qidOf cur'])

/-- `srv.walk`: seed a working fid by cloning the source (into the new
fid's record when one exists, else a local temporary), run the walk loop,
and on full success either mark the new fid attached or — for an in-place
walk — clunk the original backing fid and copy the working fid in.  The
Go code mutates the new fid's `fid` field through a pointer while walking;
sequentially that is observable only at exit, where this model writes it
back. -/
def walkFn {F : Type} [Inhabited F] (B : Backend F) (st : SrvState F)
    (srcId : Nat) (newId : Option Nat) (names : List String) :
    SrvState F × List Qid × Option String :=
  let src := (getRec st srcId).getD (FidRec.new srcId 0)
  let cur0 := B.cloneF src.fid
  let st := emit st .cloneB
  match walkLoop B st cur0 names [] with
  | (st, cur, qids, some e) =>
    let st :=
      match newId with
      | some j => putRecOpt st j fun nr => { nr with fid := cur }
      | none => st
    (st, qids, some e)
  | (st, cur, qids, none) =>
    match newId with
    | some j =>
      (putRecOpt st j fun nr => { nr with fid := cur, attached := true }, qids, none)
    | none =>
      let st := emit st (.clunk src.fid)
      let st := emit st .cloneB
      (putRec st srcId { src with fid := B.cloneF cur }, qids, none)

/-- `canRead`: the switch on `mode & 3` over `OREAD`, `ORDWR`, `OEXEC`
(second draft). -/
def canRead (mode : Nat) : Bool :=
  mode &&& 3 == OREAD || mode &&& 3 == ORDWR || mode &&& 3 == OEXEC

/-- `canWrite`: the switch on `mode & 3` over `OWRITE`, `ORDWR`. -/
def canWrite (mode : Nat) : Bool :=
  mode &&& 3 == OWRITE || mode &&& 3 == ORDWR

/-- Go `int64(x)` for a `uint64` value `x` (two's-complement
reinterpretation). -/
def int64OfUint64 (x : Nat) : Int :=
  if x < 9223372036854775808 then (x : Int) else (x : Int) - 18446744073709551616

/-- The directory-read continuation state of a fid (`dirOffset`,
`dirIndex`, `dirEntries`). -/
structure DirSt where
  dirOffset : Int
  dirIndex : Nat
  dirEntries : List (List Nat)
deriving DecidableEq

/-- The loop of `srv.readDir`: refill the 16-entry buffer with
`fs.Readdir` when the pending entries run out (a zero return ends the
read), append the next entry's serialisation to the reply buffer
(`Dir.Append`, modelled as concatenation of the entry's serialised
bytes), fail if the very first entry of the read already exceeds `limit`,
break once `limit` bytes are reached — without consuming the entry just
appended — and otherwise consume it and advance `dirIndex`.  The fuel
argument only bounds the iteration count; `none` means the Go loop would
not have terminated within the supplied fuel. -/
def readDirLoop {F : Type} (B : Backend F) (fv : F) (limit : Nat) :
    Nat → DirSt → List Nat →
    Option (DirSt × List (Ev F) × Except SrvErr (List Nat))
  | 0, _, _ => none
  | fuel + 1, ds, buf =>
    match ds.dirEntries with
    | [] =>
      match B.readdirF fv 16 ds.dirIndex with
      | .error e => some (ds, [.readdirB fv ds.dirIndex], .error (.backend e))
      | .ok batch =>
        if batch.length = 0 then some (ds, [.readdirB fv ds.dirIndex], .ok buf)
        else
          match readDirLoop B fv limit fuel { ds with dirEntries := batch } buf with
          | none => none
          | some (ds', evs, res) => some (ds', .readdirB fv ds.dirIndex :: evs, res)
    | e :: rest =>
      if limit < (buf ++ e).length ∧ buf.length = 0 then
        some (ds, [], .error .dirCountTooSmall)
      else if limit ≤ (buf ++ e).length then
        some (ds, [], .ok (buf ++ e))
      else
        readDirLoop B fv limit fuel
          { ds with dirEntries := rest, dirIndex := ds.dirIndex + 1 } (buf ++ e)

/-- Run the `readDir` loop with `limit = min(count, iounit)` and, on
success, advance `dirOffset` by the bytes produced (the Go code does this
right after sending the reply). -/
def readDirRun {F : Type} (B : Backend F) (fv : F) (iounit : Nat)
    (ds : DirSt) (count : Nat) :
    Option (DirSt × List (Ev F) × Except SrvErr (List Nat)) :=
  match readDirLoop B fv (min count iounit) (2 * min count iounit + 4) ds [] with
  | none => none
  | some (ds', evs, .error e) => some (ds', evs, .error e)
  | some (ds', evs, .ok data) =>
    some ({ ds' with dirOffset := ds'.dirOffset + data.length }, evs, .ok data)

/-- `srv.readDir`: offset 0 resets the continuation state; a non-zero
offset different from the current `dirOffset` is the "illegal read offset
in directory" error, leaving the state untouched; otherwise the read
continues from the stored state. -/
def readDirModel {F : Type} (B : Backend F) (fv : F) (iounit : Nat)
    (ds : DirSt) (offset : Int) (count : Nat) :
    Option (DirSt × List (Ev F) × Except SrvErr (List Nat)) :=
  if offset = 0 then readDirRun B fv iounit ⟨0, 0, []⟩ count
  else if offset ≠ ds.dirOffset then
    some (ds, [], .error (.badDirOffset offset ds.dirOffset))
  else readDirRun B fv iounit ds count

/-- `srv.handleAttach` (the body Go runs in a goroutine): call
`fs.Attach` into the new fid, mark it attached, then require a directory
Qid; a `Tattach` carrying `NOFID` as its fid would make Go dereference a
nil `t.newFid`. -/
def handleAttach {F : Type} (B : Backend F) (st : SrvState F) (t : XTag)
    (m : Fcall) : SrvState F :=
  match t.newFidId with
  | none => { st with crashed := true }
  | some j =>
    let afid : Option F := t.fidId.bind fun i => (getRec st i).map (·.fid)
    let st := emit st .attachB
    match B.attach afid m.uname m.aname with
    | .error e => replyError st t (.backend e)
    | .ok fv =>
      let st := putRecOpt st j fun r => { r with fid := fv, attached := true }
      let q := B.qidOf fv
      if q.isDir then reply st t { typ := .rattach, qid := q }
      else replyError st t .rootNotDir

/-- `srv.handleStat`: `fs.Stat`, `Qid` overwrite and `Dir.Bytes` (folded
into `statF`), then `Rstat`. -/
def handleStat {F : Type} (B : Backend F) (st : SrvState F) (t : XTag) :
    SrvState F :=
  match t.fidId.bind (getRec st) with
  | none => { st with crashed := true }
  | some r =>
    let st := emit st .statB
    match B.statF r.fid with
    | .error e => replyError st t (.backend e)
    | .ok bytes => reply st t { typ := .rstat, stat := bytes }

/-- `srv.handleWalk`: reject a walk on an open fid synchronously; then run
`srv.walk` and reply `Rerror` only when no name at all succeeded on a
non-empty walk, otherwise `Rwalk` with the gathered Qids. -/
def handleWalk {F : Type} [Inhabited F] (B : Backend F) (st : SrvState F)
    (t : XTag) (m : Fcall) : Except SrvErr (SrvState F) :=
  match t.fidId.bind (getRec st) with
  | none => .ok { st with crashed := true }
  | some r =>
    if r.isOpen then .error .cannotWalkOpen
    else
      .ok
        (match walkFn B st (t.fidId.getD 0) t.newFidId m.wname with
         | (st, qids, werr) =>
           if qids.length = 0 ∧ m.wname.length ≠ 0 then
             match werr with
             | some e => replyError st t (.backend e)
             | none => { st with crashed := true } -- unreachable nil error
           else reply st t { typ := .rwalk, wqid := qids })

/-- `srv.handleOpen`: reject an already-open fid; reject — with the
permission error — a directory whose requested mode byte is exactly
`OWRITE`, `ORDWR` or `OEXEC`; otherwise `fs.Open`, defaulting a zero
iounit to 8192, record the open state and reply `Ropen`. -/
def handleOpen {F : Type} (B : Backend F) (st : SrvState F) (t : XTag)
    (m : Fcall) : Except SrvErr (SrvState F) :=
  match t.fidId.bind (getRec st) with
  | none => .ok { st with crashed := true }
  | some r =>
    if r.isOpen then .error .alreadyOpen
    else if (B.qidOf r.fid).isDir &&
        (m.mode == OWRITE || m.mode == ORDWR || m.mode == OEXEC) then
      .error .perm
    else
      .ok
        (let st := emit st (.openB r.fid m.mode)
         match B.openF r.fid m.mode with
         | .error e => replyError st t (.backend e)
         | .ok (iounit0, fv') =>
           let iounit := if iounit0 = 0 then 8 * 1024 else iounit0
           let st := putRecOpt st (t.fidId.getD 0) fun r =>
             { r with fid := fv', isOpen := true, openMode := m.mode,
                      iounit := iounit }
           reply st t { typ := .ropen, qid := B.qidOf fv', iounit := iounit })

/-- `srv.handleRead`: require an open, readable fid and a non-negative,
non-overflowing offset; drive the directory-read continuation on a
directory, else `fs.ReadAt` into a `min(iounit, count)` buffer, treating
`io.EOF` and short reads as success. -/
def handleRead {F : Type} (B : Backend F) (st : SrvState F) (t : XTag)
    (m : Fcall) : Except SrvErr (SrvState F) :=
  match t.fidId.bind (getRec st) with
  | none => .ok { st with crashed := true }
  | some r =>
    if !r.isOpen then .error .notOpen
    else if !canRead r.openMode then .error .perm
    else
      let offset := int64OfUint64 m.offset
      if offset < 0 ∨ wrap64 (offset + m.count) < 0 then .error .offsetTooBig
      else
        .ok
          (if (B.qidOf r.fid).isDir then
            match readDirModel B r.fid r.iounit
                ⟨r.dirOffset, r.dirIndex, r.dirEntries⟩ offset m.count with
            | none => { st with stuck := true }
            | some (ds', evs, res) =>
              let st := { st with events := st.events ++ evs }
              let st := putRecOpt st (t.fidId.getD 0) fun r =>
                { r with dirOffset := ds'.dirOffset, dirIndex := ds'.dirIndex,
                         dirEntries := ds'.dirEntries }
              match res with
              | .error e => replyError st t e
              | .ok data => reply st t { typ := .rread, data := data }
          else
            let st := emit st (.readAtB r.fid (min r.iounit m.count) offset)
            match B.readAtF r.fid (min r.iounit m.count) offset with
            | (data, some (.other e)) =>
              if data.length = 0 then replyError st t (.backend e)
              else reply st t { typ := .rread, data := data }
            | (data, _) => reply st t { typ := .rread, data := data })

/-- `srv.handleWrite`: require an open, writable (else the "cannot write"
error — the `return errPerm` after it in the source is dead code),
non-directory fid and a valid offset, then `fs.WriteAt` and `Rwrite`. -/
def handleWrite {F : Type} (B : Backend F) (st : SrvState F) (t : XTag)
    (m : Fcall) : Except SrvErr (SrvState F) :=
  match t.fidId.bind (getRec st) with
  | none => .ok { st with crashed := true }
  | some r =>
    if !r.isOpen then .error .notOpen
    else if !canWrite r.openMode then .error (.cannotWriteMode r.openMode)
    else if (B.qidOf r.fid).isDir then .error .cannotWriteDir
    else
      let offset := int64OfUint64 m.offset
      if offset < 0 ∨ wrap64 (offset + m.data.length) < 0 then
        .error .offsetTooBig
      else
        .ok
          (let st := emit st (.writeAtB r.fid m.data.length offset)
           match B.writeAtF r.fid m.data offset with
           | .error e => replyError st t (.backend e)
           | .ok n => reply st t { typ := .rwrite, count := n })

/-- `srv.handleClunk`: drop the fid from the table (the back-end `Clunk`
runs when its refcount reaches zero) and always reply `Rclunk`. -/
def handleClunk {F : Type} (st : SrvState F) (t : XTag)
    (m : Fcall) : SrvState F :=
  match t.fidId with
  | none => { st with crashed := true }
  | some i =>
    let st := delFid st i
    reply st t { typ := .rclunk, fid := m.fid }

/-- One main-loop iteration of `Serve`: build the tag (replying on
failure), look up the operation for the message type (the second draft
registers `Tattach`, `Tstat`, `Twalk`, `Tread`, `Twrite`, `Topen`,
`Tclunk`), run it, and turn a synchronous handler error into `Rerror`.
Once a handler has crashed (or the model ran out of fuel) the run stops. -/
def processMsg {F : Type} [Inhabited F] (B : Backend F) (st : SrvState F)
    (m : Fcall) : SrvState F :=
  if st.crashed || st.stuck then st
  else
    match initTag st m with
    | (st, t, some e) => replyError st t e
    | (st, t, none) =>
      match m.typ with
      | .tattach => handleAttach B st t m
      | .tstat => handleStat B st t
      | .twalk =>
        match handleWalk B st t m with
        | .error e => replyError st t e
        | .ok st' => st'
      | .topen =>
        match handleOpen B st t m with
        | .error e => replyError st t e
        | .ok st' => st'
      | .tread =>
        match handleRead B st t m with
        | .error e => replyError st t e
        | .ok st' => st'
      | .twrite =>
        match handleWrite B st t m with
        | .error e => replyError st t e
        | .ok st' => st'
      | .tclunk => handleClunk st t m
      | _ => replyError st t .badOpType

/-- The main loop: process the parsed messages in order (EOF or a read
error on the connection simply ends the list). -/
def srvLoop {F : Type} [Inhabited F] (B : Backend F) :
    SrvState F → List Fcall → SrvState F
  | st, [] => st
  | st, m :: rest => srvLoop B (processMsg B st m) rest

/-- The observable outcome of one `Serve` call.  `trace` lists the
back-end calls in order followed by the single deferred `fs.Close()`; a
crashed (or fuel-exhausted) run never returns, so its trace has no
`close`. -/
structure ServeResult (F : Type) where
  fids : List (Nat × FidRec F)
  events : List (Ev F)
  trace : List (TEv F)
  replies : List Fcall
  crashed : Bool
  stuck : Bool
deriving DecidableEq

/-- Package a final state as a `ServeResult`. -/
def mkResult {F : Type} (st : SrvState F) : ServeResult F :=
  { fids := st.fids, events := st.events,
    trace :=
      if st.crashed || st.stuck then st.events.map .bk
      else st.events.map .bk ++ [.close],
    replies := st.replies, crashed := st.crashed, stuck := st.stuck }

/-- `Serve(ctx, conn, fs)`: the version handshake — the first message must
be a `Tversion` with version `"9P2000"`, else the connection is abandoned
(after an `Rversion "unknown"` reply for a version mismatch) — followed by
the main loop; `fs.Close()` runs via `defer` on every return path. -/
def serve {F : Type} [Inhabited F] (B : Backend F) (msgs : List Fcall) :
    ServeResult F :=
  match msgs with
  | [] => mkResult {}
  | m :: rest =>
    if m.typ ≠ .tversion then mkResult {}
    else if m.version ≠ "9P2000" then
      mkResult { replies := [{ typ := .rversion, tag := m.tag, version := "unknown" }] }
    else
      let st0 : SrvState F :=
        { replies := [{ typ := .rversion, tag := m.tag, version := m.version,
                        msize := m.msize }] }
      mkResult (srvLoop B st0 rest)

deriving instance DecidableEq for Except

/-!
### Concrete instances used to evaluate the models
-/

/-- A trivial inner back-end: `AttachInner` always succeeds (as both
in-repo inner back-ends, `staticfsys` and a nested `clonefsys`, do). -/
def trivInner : InnerFsys Unit Unit where
  attachInner := fun _ => .ok ()
  walkInner := fun _ _ => .error "file not found"

/-- A provider for which every id exists. -/
def trivProvider : Unit → Provider Unit := fun _ => { get := fun _ => some () }

/-- The clone wrapper's root fid. -/
def cloneRootFid : CloneFid Unit Unit :=
  { c := (), kind := .root, id := 0, fid := none }

/-- The serialised directory entries of the toy back-end's root: two
entries of five bytes each. -/
def toyDirEnts : List (List Nat) := [List.replicate 5 0, List.replicate 5 1]

/-- A minimal concrete back-end for evaluating the runtime model: a fid is
the path of names walked from the root.  The root `[]` is a directory with
one child `"a"`; listing the root serialises the two five-byte entries of
`toyDirEnts`; plain files read as empty. -/
def toyB : Backend (List String) where
  attach := fun _ _ _ => .ok []
  qidOf := fun f => if f = [] then ⟨0x80, 0, 1⟩ else ⟨0, 0, 2⟩
  cloneF := fun f => f
  walkF := fun f n =>
    if f = [] ∧ n = "a" then .ok ["a"] else .error "file not found"
  openF := fun f _ => .ok (0, f)
  readAtF := fun _ _ _ => ([], some .eof)
  writeAtF := fun _ b _ => .ok b.length
  readdirF := fun f cap idx =>
    if f = [] then .ok ((toyDirEnts.drop idx).take cap) else .ok []
  statF := fun _ => .ok []

/-- A valid handshake followed by an attach of fid 0. -/
def msgsAttachOnly : List Fcall :=
  [{ typ := .tversion, tag := 0, version := "9P2000" },
   { typ := .tattach, tag := 1, fid := 0, afid := NOFID }]

/-- ... then a Twalk from fid 0 to new fid 1 whose second name fails. -/
def msgsWalkPartial : List Fcall :=
  msgsAttachOnly ++
    [{ typ := .twalk, tag := 2, fid := 0, newfid := 1, wname := ["a", "b"] }]

/-- ... then a Twalk from fid 0 to new fid 1 whose first name fails. -/
def msgsWalkNone : List Fcall :=
  msgsAttachOnly ++
    [{ typ := .twalk, tag := 2, fid := 0, newfid := 1, wname := ["b"] }]

/-- ... then a Topen of the root directory with mode `OWRITE|OTRUNC`. -/
def msgsOpenDirTrunc : List Fcall :=
  msgsAttachOnly ++ [{ typ := .topen, tag := 2, fid := 0, mode := 17 }]

/-- ... then an open of the root directory for reading and a Tread of six
bytes at offset 0. -/
def msgsDirRead : List Fcall :=
  msgsAttachOnly ++
    [{ typ := .topen, tag := 2, fid := 0, mode := 0 },
     { typ := .tread, tag := 3, fid := 0, offset := 0, count := 6 }]

/-- A one-fid server state whose fid 0 is open write-only (`OWRITE`). -/
def stC6 : SrvState (List String) :=
  { fids := [(0, ⟨0, 1, [], true, true, 1, 8192, 0, 0, []⟩)] }

/-- A Tread of fid 0. -/
def mC6 : Fcall := { typ := .tread, tag := 9, fid := 0 }

/-- A one-fid server state whose fid 0 is an unopened directory fid. -/
def stC5 : SrvState (List String) :=
  { fids := [(0, ⟨0, 1, [], true, false, 0, 0, 0, 0, []⟩)] }

/-- A Topen of fid 0 with mode `ORDWR`. -/
def mC5 : Fcall := { typ := .topen, tag := 9, fid := 0, mode := 2 }

/-- `wrap64` is the identity on the `int64` range. -/
theorem wrap64_eq_self (x : Int) (h1 : -9223372036854775808 ≤ x)
    (h2 : x < 9223372036854775808) : wrap64 x = x := by
  unfold wrap64
  omega

/-- After a successful in-range write (the end position within `maxSize`,
itself in Go `int` range), the call succeeds and the backing slice holds
the written bytes at `off`, in a context long enough to cover them. -/
theorem bufFile_writeAt_buf (f : bufFile) (b : List Nat) (off : Int)
    (h0 : 0 ≤ off) (hM : off + b.length ≤ f.maxSize)
    (h63 : f.maxSize < 2 ^ 63) :
    ∃ pre post, pre.length = off.toNat ∧
      f.WriteAt b off =
        .ok ((b.length, none), { f with buf := pre ++ b ++ post }) := by
  have hnlt : ¬ off < 0 := not_lt.mpr h0
  have hsum : off + (b.length : Int) < 9223372036854775808 := by
    have hp : (2 : Int) ^ 63 = 9223372036854775808 := by norm_num
    omega
  have hw : wrap64 (off + b.length) = off + b.length :=
    wrap64_eq_self _ (by omega) hsum
  have hngt : ¬ wrap64 (off + (b.length : Int)) > f.maxSize := by
    rw [hw]; exact not_lt.mpr hM
  unfold bufFile.WriteAt
  simp only [hnlt, hngt, if_false]
  set start := off.toNat with hstart
  have hso : (start : Int) = off := Int.toNat_of_nonneg h0
  have hw2 : wrap64 ((start : Int) + b.length) = (start : Int) + b.length := by
    rw [hso]; exact wrap64_eq_self _ (by omega) hsum
  by_cases hext : start + b.length > f.buf.length
  · have hcond : wrap64 ((start : Int) + b.length) > (f.buf.length : Int) := by
      rw [hw2]; exact_mod_cast hext
    simp only [hcond, if_true]
    set buf1 := f.buf ++ List.replicate (start + b.length - f.buf.length) 0 with hbuf1
    have hlen1 : buf1.length = start + b.length := by
      simp [hbuf1]
      omega
    have hnc : ¬ buf1.length < start := by omega
    simp only [hnc, if_false]
    have hmin : min b.length (buf1.length - start) = b.length := by omega
    rw [hmin, List.take_length]
    refine ⟨buf1.take start, buf1.drop (start + b.length), ?_, rfl⟩
    rw [List.length_take]
    omega
  · have hle : start + b.length ≤ f.buf.length := not_lt.mp hext
    have hcond : ¬ wrap64 ((start : Int) + b.length) > (f.buf.length : Int) := by
      rw [hw2]
      exact not_lt.mpr (by exact_mod_cast hle)
    simp only [hcond, if_false]
    have hnc : ¬ f.buf.length < start := by omega
    simp only [hnc, if_false]
    have hmin : min b.length (f.buf.length - start) = b.length := by omega
    rw [hmin, List.take_length]
    refine ⟨f.buf.take start, f.buf.drop (start + b.length), ?_, rfl⟩
    rw [List.length_take]
    omega

/-- C9 (amended): for a `bufFile` with `maxSize` in Go `int` range, for
all byte strings `B` and offsets `O` with `0 ≤ O` and `O + len B ≤
maxSize`, `WriteAt B O` returns `(len B, nil)`, and a subsequent `ReadAt`
at `O` into a buffer of length at least `len B` (with no intervening
write) returns at least `len B` bytes whose first `len B` bytes equal
`B`; a write whose end position exceeds `maxSize` while staying in
`int64` range (`maxSize < O + len B < 2^63`) fails with an error (the
unamended claim's unrestricted overflow clause is refuted by
`bufFile_writeAt_wrap_crashes`: at `O + len B ≥ 2^63` the guard's `int64`
sum wraps negative and the write panics instead of erroring). -/
theorem bufFile_write_read_roundtrip (f : bufFile) (b : List Nat) (off : Int)
    (h63 : f.maxSize < 2 ^ 63) :
    (0 ≤ off → off + b.length ≤ f.maxSize →
      ∃ f', f.WriteAt b off = .ok ((b.length, none), f') ∧
        ∀ dstLen, b.length ≤ dstLen →
          b.length ≤ (f'.ReadAt dstLen off).1.1 ∧
          ((f'.ReadAt dstLen off).1.2).take b.length = b) ∧
    (f.maxSize < off + b.length → off + b.length < 2 ^ 63 →
      ∃ msg, f.WriteAt b off = .ok ((0, some msg), f)) := by
  constructor
  · intro h0 hM
    obtain ⟨pre, post, hpre, hwr⟩ := bufFile_writeAt_buf f b off h0 hM h63
    refine ⟨_, hwr, ?_⟩
    intro dstLen hdst
    set f' : bufFile := { f with buf := pre ++ b ++ post } with hf'
    have hlenbuf : f'.buf.length = pre.length + b.length + post.length := by
      simp [hf']
      omega
    unfold bufFile.ReadAt
    by_cases heof : (f'.buf.length : Int) ≤ off
    · -- only possible when b = [] and the read starts exactly at EOF
      have hb0 : b.length = 0 := by
        have : (off.toNat : Int) = off := Int.toNat_of_nonneg h0
        omega
      have hbnil : b = [] := List.length_eq_zero.mp hb0
      simp [heof, hbnil]
    · have hnlt : ¬ off < 0 := not_lt.mpr h0
      simp only [heof, if_false, hnlt, if_false]
      have hdrop : f'.buf.drop off.toNat = b ++ post := by
        have hsplit : f'.buf = pre ++ (b ++ post) := by simp [hf']
        rw [hsplit, List.drop_left' hpre]
      constructor
      · rw [hdrop]
        simp
        omega
      · rw [hdrop, List.take_take]
        have hmin : min b.length dstLen = b.length := min_eq_left hdst
        rw [hmin, List.take_left' rfl]
  · intro hM h63s
    by_cases hneg : off < 0
    · exact ⟨"negative file offset", by unfold bufFile.WriteAt; rw [if_pos hneg]⟩
    · have hp : (2 : Int) ^ 63 = 9223372036854775808 := by norm_num
      have hw : wrap64 (off + b.length) = off + b.length := by
        apply wrap64_eq_self
        · omega
        · omega
      refine ⟨"max file size exceeded", ?_⟩
      unfold bufFile.WriteAt
      rw [if_neg hneg, if_pos (show wrap64 (off + (b.length : Int)) > f.maxSize by
        rw [hw]; exact hM)]

/-- C9 witness: a concrete in-range write followed by a read returns the
written bytes. -/
theorem bufFile_write_read_roundtrip_witness :
    ((6 : Int) < 2 ^ 63 ∧ (0 : Int) ≤ 2 ∧
      (2 : Int) + ([7, 8] : List Nat).length ≤ 6) ∧
    ∃ f', ({ maxSize := 6, buf := [1] } : bufFile).WriteAt [7, 8] 2 =
        .ok ((([7, 8] : List Nat).length, none), f') ∧
      ∀ dstLen, ([7, 8] : List Nat).length ≤ dstLen →
        ([7, 8] : List Nat).length ≤ (f'.ReadAt dstLen 2).1.1 ∧
        ((f'.ReadAt dstLen 2).1.2).take ([7, 8] : List Nat).length = [7, 8] := by
  refine ⟨⟨by norm_num, by norm_num, by norm_num⟩, ?_⟩
  exact (bufFile_write_read_roundtrip { maxSize := 6, buf := [1] } [7, 8] 2
    (by norm_num)).1 (by norm_num) (by norm_num)

/-- C9 counterexample: a write whose end position `O + len B` exceeds
`maxSize` does *not* always fail with an error — at `off = 2^63 - 1` with
two bytes the guard's `int64` sum `off+int64(len(buf))` wraps to a
negative value, slips past the `> maxSize` comparison, the growth test
wraps identically so the backing slice is not extended, and
`copy(f.buf[start:], buf)` panics. -/
theorem bufFile_writeAt_wrap_crashes :
    (0 : Int) ≤ 9223372036854775807 ∧
    (10 : Int) < 9223372036854775807 + ([0, 0] : List Nat).length ∧
    ({ maxSize := 10, buf := [] } : bufFile).WriteAt [0, 0] 9223372036854775807 =
      .crash := by
  refine ⟨by norm_num, by norm_num, ?_⟩
  decide

/-- C10 counterexample: the claimed "errors exactly when the offset is
negative or the end position exceeds `maxSize`" fails in the `int64` wrap
region: here `maxSize < off + len(buf)` holds with `off ≥ 0`, yet no
error is returned — the guard's wrapping sum passes and the call panics
in `copy` instead. -/
theorem bufFile_writeAt_wrap_no_error :
    ((5 : Int) < 9223372036854775806 + ([7, 7, 7] : List Nat).length) ∧
    (0 : Int) ≤ 9223372036854775806 ∧
    ({ maxSize := 5, buf := [9] } : bufFile).WriteAt [7, 7, 7] 9223372036854775806 =
      .crash := by
  refine ⟨by norm_num, by norm_num, ?_⟩
  decide

/-- C10 (amended): `bufFile.WriteAt` returns an error exactly when the
offset is negative or the *wrapping* `int64` end position
`wrap64 (off + len b)` exceeds `maxSize` — which for end positions below
`2^63` coincides with `off + len b > maxSize` — and in that case it
returns count 0 and leaves the file (contents and length) completely
unchanged; when neither guard fires the call either panics or succeeds
with a nil error, so no error escapes outside the two guard cases. -/
theorem bufFile_writeAt_failure_atomic (f : bufFile) (b : List Nat) (off : Int) :
    (off < 0 → f.WriteAt b off = .ok ((0, some "negative file offset"), f)) ∧
    (¬ off < 0 → f.maxSize < wrap64 (off + b.length) →
      f.WriteAt b off = .ok ((0, some "max file size exceeded"), f)) ∧
    (¬ off < 0 → ¬ f.maxSize < wrap64 (off + b.length) →
      f.WriteAt b off = .crash ∨
      ∃ f', f.WriteAt b off = .ok ((b.length, none), f')) ∧
    (¬ off < 0 → f.maxSize < off + b.length → off + b.length < 2 ^ 63 →
      f.WriteAt b off = .ok ((0, some "max file size exceeded"), f)) := by
  have h2 : ¬ off < 0 → f.maxSize < wrap64 (off + b.length) →
      f.WriteAt b off = .ok ((0, some "max file size exceeded"), f) := by
    intro hneg hgt
    unfold bufFile.WriteAt
    rw [if_neg hneg, if_pos hgt]
  refine ⟨?_, h2, ?_, ?_⟩
  · intro hneg
    unfold bufFile.WriteAt
    rw [if_pos hneg]
  · intro hneg hle
    unfold bufFile.WriteAt
    simp only [hneg, hle, if_false]
    split <;> split <;> first
      | exact Or.inl rfl
      | exact Or.inr ⟨_, rfl⟩
  · intro hneg hM h63s
    apply h2 hneg
    have hp : (2 : Int) ^ 63 = 9223372036854775808 := by norm_num
    have hw : wrap64 (off + b.length) = off + b.length := by
      apply wrap64_eq_self
      · omega
      · omega
    rw [hw]
    exact hM

/-!
### C2: bounds of the static back-end's `Readdir`
-/

/-- C2 (code evaluated at the failing input): `fsys.Readdir` of the static
back-end does *not* write at most `len(dir)` entries — a directory with
two children read into a one-entry `dir` slice (equivalently seventeen
children into the runtime's sixteen-entry buffer) writes past the end of
`dir` and panics; and whenever it does return, the count is
`len(entries) - index`, which is not bounded by `len(dir)`. -/
theorem staticReaddir_overflows_dir :
    staticReaddir [0, 1] 1 0 = GoResult.crash ∧
    staticReaddir (List.range 17) 16 0 = GoResult.crash ∧
    staticReaddir ([0] : List Nat) 1 0 = .ok ([0], 1) := by
  refine ⟨by decide, ?_, by decide⟩
  decide

/-!
### C8: the clone wrapper's root walk

Round-trip lemmas connecting `strconv.Atoi` and `fmt.Sprint` (canonical
decimal form), then the behaviour of `cloneWalk` at the root.
-/

/-- Every digit character produced by `digitChar` is an ASCII digit. -/
theorem digitChar_toNat (n : Nat) :
    48 ≤ (digitChar n).toNat ∧ (digitChar n).toNat ≤ 57 := by
  match n with
  | 0 | 1 | 2 | 3 | 4 | 5 | 6 | 7 | 8 => decide
  | m + 9 => simp [digitChar]

/-- `digitVal` inverts `digitChar` on digits. -/
theorem digitVal_digitChar (n : Nat) (h : n < 10) :
    digitVal (digitChar n) = some n := by
  interval_cases n <;> decide

/-- `natCanonAux` always yields a digit first. -/
theorem natCanonAux_head (fuel n : Nat) (acc : List Char) :
    ∃ d cs, natCanonAux fuel n acc = d :: cs ∧ 48 ≤ d.toNat ∧ d.toNat ≤ 57 := by
  induction fuel generalizing n acc with
  | zero => exact ⟨digitChar n, acc, rfl, digitChar_toNat n⟩
  | succ fuel ih =>
    rw [natCanonAux]
    by_cases h : n < 10
    · exact ⟨digitChar n, acc, by simp [h], digitChar_toNat n⟩
    · simp only [h, if_false]
      exact ih _ _

/-- Parsing the canonical digits of `n` prepended to `acc` accumulates
`n` into the value. -/
theorem parseUintAux_natCanonAux (fuel n v : Nat) (acc : List Char)
    (hfuel : n ≤ fuel) :
    ∃ k, parseUintAux (natCanonAux fuel n acc) v = parseUintAux acc (v * 10 ^ k + n)
      ∧ n < 10 ^ k := by
  induction fuel generalizing n v acc with
  | zero =>
    obtain rfl : n = 0 := by omega
    refine ⟨1, ?_, by omega⟩
    simp only [natCanonAux, parseUintAux, digitVal_digitChar 0 (by omega)]
    norm_num
  | succ fuel ih =>
    rw [natCanonAux]
    by_cases h : n < 10
    · refine ⟨1, ?_, by omega⟩
      simp only [h, if_true, parseUintAux, digitVal_digitChar n h]
      norm_num
    · simp only [h, if_false]
      obtain ⟨k, hk, hlt⟩ := ih (n / 10) v (digitChar (n % 10) :: acc)
        (by omega)
      have h2 : 10 * (n / 10) + n % 10 = n := Nat.div_add_mod n 10
      refine ⟨k + 1, ?_, ?_⟩
      · rw [hk]
        have h10 : n % 10 < 10 := Nat.mod_lt _ (by norm_num)
        simp only [parseUintAux, digitVal_digitChar _ h10]
        congr 1
        calc (v * 10 ^ k + n / 10) * 10 + n % 10
            = v * (10 ^ k * 10) + (10 * (n / 10) + n % 10) := by ring
          _ = v * 10 ^ (k + 1) + n := by rw [h2]; ring
      · have h3 : n / 10 * 10 < 10 ^ k * 10 := by omega
        have hp : 10 ^ (k + 1) = 10 ^ k * 10 := by ring
        omega

/-- Parsing round-trip on natural numbers. -/
theorem parseUint_natCanonList (n : Nat) :
    parseUint (natCanonList n) = some n := by
  obtain ⟨d, cs, hshape, _, _⟩ := natCanonAux_head n n []
  obtain ⟨k, hk, _⟩ := parseUintAux_natCanonAux n n 0 [] le_rfl
  simp only [natCanonList]
  rw [hshape]
  show parseUintAux (d :: cs) 0 = some n
  rw [← hshape, hk]
  simp [parseUintAux]

/-- Whatever `strconv.Atoi` accepts lies in the `int64` range. -/
theorem goAtoiList_range (cs : List Char) (i : Int) (h : goAtoiList cs = some i) :
    -(2 ^ 63) ≤ i ∧ i < 2 ^ 63 := by
  match cs with
  | [] => simp [goAtoiList] at h
  | c :: rest =>
    rw [goAtoiList] at h
    split_ifs at h <;>
      · rcases hp : (parseUint _) with _ | n <;> rw [hp] at h <;> simp at h
        omega

/-- The canonical form of a natural number never starts with a sign. -/
theorem natCanonList_head_not_sign (n : Nat) :
    ∃ d cs, natCanonList n = d :: cs ∧ ¬ d = '-' ∧ ¬ d = '+' := by
  obtain ⟨d, cs, hshape, hlo, hhi⟩ := natCanonAux_head n n []
  refine ⟨d, cs, hshape, ?_, ?_⟩ <;> intro hd <;> subst hd
  · rw [show ('-').toNat = 45 from rfl] at hlo; omega
  · rw [show ('+').toNat = 43 from rfl] at hlo; omega

/-- `strconv.Atoi` accepts the canonical decimal form of every in-range
integer and returns that integer. -/
theorem goAtoiList_intCanonList (i : Int)
    (h1 : -(2 ^ 63) ≤ i) (h2 : i < 2 ^ 63) :
    goAtoiList (intCanonList i) = some i := by
  by_cases hneg : i < 0
  · rw [intCanonList, if_pos hneg, goAtoiList, if_pos rfl, parseUint_natCanonList,
      Option.some_bind]
    have habs : (i.natAbs : Int) = -i := by omega
    rw [habs, if_pos (show -i ≤ 9223372036854775808 by omega), neg_neg]
  · obtain ⟨d, cs, hshape, hm, hp⟩ := natCanonList_head_not_sign i.toNat
    rw [intCanonList, if_neg hneg, hshape, goAtoiList, if_neg hm, if_neg hp,
      ← hshape, parseUint_natCanonList, Option.some_bind]
    have htn : ((i.toNat : Int)) = i := Int.toNat_of_nonneg (by omega)
    rw [htn, if_pos (show i < 9223372036854775808 by omega)]

/-- C8 counterexample: walking `".."` at the clone wrapper's root hits the
unimplemented `walkDotdot` stub — a runtime panic — so this walk neither
succeeds nor returns the error "file not found", although `".."` is not
the canonical decimal form of any id. -/
theorem cloneWalk_dotdot_result :
    cloneWalk trivInner trivProvider cloneRootFid ".." = .crash ∧
    (WalkRes.crash : WalkRes (CloneFid Unit Unit)) ≠ .err "file not found" ∧
    ∀ g : CloneFid Unit Unit,
      (WalkRes.crash : WalkRes (CloneFid Unit Unit)) ≠ .ok g := by
  refine ⟨by decide, by decide, ?_⟩
  intro g h
  exact WalkRes.noConfusion h

/-- C8 (amended): for every name other than `".."` (which panics in the
`walkDotdot` stub), a `Walk` at the clone wrapper's root succeeds iff the
name is the canonical decimal representation of an in-range (`int64`)
integer id for which `provider.Get` reports existence — so `"01"` fails —
provided the inner `AttachInner` always succeeds (as both in-repo inner
back-ends guarantee); on success the fid becomes `dir`-kind carrying that
id and the `AttachInner`-seeded inner fid, and on any failure the error is
exactly "file not found". -/
theorem cloneWalk_root_characterisation {F C0 C1 : Type}
    (inner : InnerFsys F C1) (provider : C0 → Provider C1)
    (f : CloneFid F C0) (name : String)
    (hroot : f.kind = .root) (hdd : name ≠ "..")
    (hAI : ∀ c, ∃ g, inner.attachInner c = .ok g) :
    match cloneWalk inner provider f name with
    | .ok g =>
        ∃ id c1 fv, name = intCanon id ∧ -(2 ^ 63) ≤ id ∧ id < 2 ^ 63 ∧
          (provider f.c).get id = some c1 ∧ inner.attachInner c1 = .ok fv ∧
          g = { c := f.c, kind := .dir, id := id, fid := some fv }
    | .err e => e = "file not found" ∧
        ¬ ∃ id, name = intCanon id ∧ -(2 ^ 63) ≤ id ∧ id < 2 ^ 63 ∧
          ((provider f.c).get id).isSome
    | .crash => False := by
  have hrt : ∀ id : Int, name = intCanon id → -(2 ^ 63) ≤ id → id < 2 ^ 63 →
      goAtoi name = some id := by
    intro id h hl hr
    show goAtoiList name.data = some id
    have : name.data = intCanonList id := by rw [h]; rfl
    rw [this]
    exact goAtoiList_intCanonList id hl hr
  rw [cloneWalk, if_neg hdd, hroot]
  dsimp only
  rcases hatoi : goAtoi name with _ | id
  · refine ⟨rfl, ?_⟩
    rintro ⟨id, hn, hl, hr, _⟩
    rw [hrt id hn hl hr] at hatoi
    exact Option.noConfusion hatoi
  · dsimp only
    by_cases hcanon : intCanon id = name
    · rw [if_neg (by simpa using hcanon)]
      rcases hget : (provider f.c).get id with _ | c1
      · refine ⟨rfl, ?_⟩
        rintro ⟨id', hn', hl', hr', hsome⟩
        have h2 := hrt id' hn' hl' hr'
        rw [hatoi] at h2
        obtain rfl : id = id' := by injection h2
        rw [hget] at hsome
        simp at hsome
      · dsimp only
        obtain ⟨fv, hfv⟩ := hAI c1
        rw [hfv]
        have hrange := goAtoiList_range name.data id hatoi
        exact ⟨id, c1, fv, hcanon.symm, hrange.1, hrange.2, hget, hfv, rfl⟩
    · rw [if_pos (by simpa using hcanon)]
      refine ⟨rfl, ?_⟩
      rintro ⟨id', hn', hl', hr', _⟩
      have h2 := hrt id' hn' hl' hr'
      rw [hatoi] at h2
      obtain rfl : id = id' := by injection h2
      exact hcanon hn'.symm

/-- C8 witness: the characterisation applied at the non-canonical name
`"01"`, which therefore fails with "file not found". -/
theorem cloneWalk_root_characterisation_witness :
    (cloneRootFid.kind = .root ∧ ("01" : String) ≠ ".." ∧
      ∀ c : Unit, ∃ g : Unit, trivInner.attachInner c = .ok g) ∧
    cloneWalk trivInner trivProvider cloneRootFid "01" = .err "file not found" ∧
    ¬ ∃ id, ("01" : String) = intCanon id ∧ -(2 ^ 63) ≤ id ∧ id < 2 ^ 63 ∧
      ((trivProvider cloneRootFid.c).get id).isSome := by
  have h := cloneWalk_root_characterisation trivInner trivProvider cloneRootFid
    "01" rfl (by decide) (fun c => ⟨(), rfl⟩)
  have hc : cloneWalk trivInner trivProvider cloneRootFid "01" =
      .err "file not found" := by decide
  rw [hc] at h
  exact ⟨⟨rfl, by decide, fun c => ⟨(), rfl⟩⟩, hc, h.2⟩

/-!
### C3 and C7: the directory-read continuation
-/

/-- C3 (code evaluated at the failing input): a `Tread` of `count = 6`
bytes on a directory whose entries serialise to five bytes each replies
with *ten* bytes — `limit = min(count, iounit) = 6` is exceeded because
the loop breaks only after appending the overflowing entry — and that
entry is also left in `dirEntries` (index 1 not advanced), to be sent
again by the next read.  The same run through the full server loop shows
the oversized `Rread` reply on the wire. -/
theorem readDir_overflows_limit :
    min 6 8192 = 6 ∧
    readDirModel toyB [] 8192 ⟨0, 0, []⟩ 0 6 =
      some (⟨10, 1, [List.replicate 5 1]⟩, [.readdirB [] 0],
        .ok (List.replicate 5 0 ++ List.replicate 5 1)) ∧
    (List.replicate 5 0 ++ List.replicate 5 1 : List Nat).length = 10 ∧
    (serve toyB msgsDirRead).replies.getLast? =
      some { typ := .rread, tag := 3,
             data := List.replicate 5 0 ++ List.replicate 5 1 } := by
  exact ⟨rfl, by decide, by decide, by decide⟩

/-- The loop of `readDir` never touches `dirOffset`. -/
theorem readDirLoop_dirOffset {F : Type} (B : Backend F) (fv : F)
    (limit : Nat) :
    ∀ fuel ds buf ds' evs res,
      readDirLoop B fv limit fuel ds buf = some (ds', evs, res) →
      ds'.dirOffset = ds.dirOffset := by
  intro fuel
  induction fuel with
  | zero => intro ds buf ds' evs res h; simp [readDirLoop] at h
  | succ fuel ih =>
    intro ds buf ds' evs res h
    rw [readDirLoop] at h
    split at h
    · -- no pending entries: refill
      split at h
      · simp only [Option.some.injEq, Prod.mk.injEq] at h
        obtain ⟨rfl, -⟩ := h
        rfl
      · split at h
        · simp only [Option.some.injEq, Prod.mk.injEq] at h
          obtain ⟨rfl, -⟩ := h
          rfl
        · split at h
          · exact absurd h (by simp)
          · rename_i heq
            simp only [Option.some.injEq, Prod.mk.injEq] at h
            obtain ⟨rfl, -⟩ := h
            exact (ih _ _ _ _ _ heq).trans rfl
    · -- consume the next entry
      split at h
      · simp only [Option.some.injEq, Prod.mk.injEq] at h
        obtain ⟨rfl, -⟩ := h
        rfl
      · split at h
        · simp only [Option.some.injEq, Prod.mk.injEq] at h
          obtain ⟨rfl, -⟩ := h
          rfl
        · exact (ih _ _ _ _ _ h).trans rfl

/-- C7: the directory-read continuation invariant.  A read at offset 0 is
insensitive to (i.e. resets) the stored continuation state; a read at a
non-zero offset different from the current `dirOffset` returns exactly the
"illegal read offset in directory" error with the state unchanged and no
back-end call; and every successful read leaves `dirOffset` equal to the
bytes it returned added to the offset it started from (0 after a reset,
the previous `dirOffset` otherwise) — so `dirOffset` is the running sum of
the bytes returned since the last offset-0 read. -/
theorem readDir_offset_discipline {F : Type} (B : Backend F) (fv : F)
    (iounit : Nat) :
    (∀ ds₁ ds₂ count,
      readDirModel B fv iounit ds₁ 0 count =
        readDirModel B fv iounit ds₂ 0 count) ∧
    (∀ ds off count, off ≠ 0 → off ≠ ds.dirOffset →
      readDirModel B fv iounit ds off count =
        some (ds, [], .error (.badDirOffset off ds.dirOffset))) ∧
    (∀ ds off count ds' evs data,
      readDirModel B fv iounit ds off count = some (ds', evs, .ok data) →
      ds'.dirOffset = (if off = 0 then 0 else ds.dirOffset) + data.length) := by
  refine ⟨?_, ?_, ?_⟩
  · intro ds₁ ds₂ count
    simp [readDirModel]
  · intro ds off count h1 h2
    rw [readDirModel, if_neg h1, if_pos h2]
  · intro ds off count ds' evs data h
    rw [readDirModel] at h
    by_cases h0 : off = 0
    · rw [if_pos h0] at h
      rw [readDirRun] at h
      split at h
      · exact absurd h (by simp)
      · simp at h
      · rename_i heq
        simp only [Option.some.injEq, Prod.mk.injEq, Except.ok.injEq] at h
        obtain ⟨rfl, -, rfl⟩ := h
        have hz := readDirLoop_dirOffset B fv _ _ _ _ _ _ _ heq
        rw [if_pos h0]
        simp [hz]
    · rw [if_neg h0] at h
      by_cases h2 : off = ds.dirOffset
      · rw [if_neg (show ¬ off ≠ ds.dirOffset from fun hc => hc h2)] at h
        rw [readDirRun] at h
        split at h
        · exact absurd h (by simp)
        · simp at h
        · rename_i heq
          simp only [Option.some.injEq, Prod.mk.injEq, Except.ok.injEq] at h
          obtain ⟨rfl, -, rfl⟩ := h
          have hz := readDirLoop_dirOffset B fv _ _ _ _ _ _ _ heq
          rw [if_neg h0]
          simp [hz]
      · rw [if_pos h2] at h
        simp at h

/-- C7 witness: a read at offset 3 of a directory fid whose `dirOffset` is
5 fails with the exact error and leaves the state unchanged. -/
theorem readDir_offset_discipline_witness :
    ((3 : Int) ≠ 0 ∧ (3 : Int) ≠ (⟨5, 1, [[0]]⟩ : DirSt).dirOffset) ∧
    readDirModel toyB [] 8192 ⟨5, 1, [[0]]⟩ 3 6 =
      some (⟨5, 1, [[0]]⟩, [], .error (.badDirOffset 3 5)) := by
  refine ⟨⟨by decide, by decide⟩, ?_⟩
  exact (readDir_offset_discipline toyB [] 8192).2.1 ⟨5, 1, [[0]]⟩ 3 6
    (by decide) (by decide)

/-!
### C1: teardown behaviour of `Serve`
-/

/-- Updating a present key is visible to lookup. -/
theorem aget_aset {α : Type} (l : List (Nat × α)) (i : Nat) (v x : α)
    (h : aget l i = some v) : aget (aset l i x) i = some x := by
  induction l with
  | nil => simp [aget] at h
  | cons p r ih =>
    obtain ⟨k, w⟩ := p
    by_cases hk : k = i
    · simp [aget, aset, hk]
    · rw [aget, if_neg hk] at h
      rw [aset, if_neg hk, aget, if_neg hk]
      exact ih h

/-- Back-end call events mapped into a trace contain no `close`. -/
theorem filter_isClose_map_bk {F : Type} (evs : List (Ev F)) :
    (evs.map (TEv.bk (F := F))).filter TEv.isClose = [] := by
  induction evs with
  | nil => rfl
  | cons e t ih => simp [List.filter, TEv.isClose, ih]

/-- C1 counterexample: a clean run that attaches fid 0 and then hits EOF
returns with fid 0 still live in the fid table and no back-end `Clunk`
call in the whole trace — `Serve` only runs its deferred `fs.Close()`. -/
theorem serve_leaves_live_fids_unclunked :
    aget (serve toyB msgsAttachOnly).fids 0 ≠ none ∧
    ((serve toyB msgsAttachOnly).events.filter Ev.isClunk) = [] ∧
    ((serve toyB msgsAttachOnly).trace.filter TEv.isClose).length = 1 := by
  exact ⟨by decide, by decide, by decide⟩

/-- C1 (amended): whenever `Serve` returns (its handlers neither panicked
nor — a model artifact — ran out of fuel), the trace ends with exactly one
`fs.Close()` call, the deferred one; fids still live in the fid table are
not released with `fs.Clunk`. -/
theorem serve_closes_once {F : Type} [Inhabited F] (B : Backend F)
    (msgs : List Fcall)
    (h : ((serve B msgs).crashed || (serve B msgs).stuck) = false) :
    ((serve B msgs).trace.filter TEv.isClose) = [TEv.close] ∧
    (serve B msgs).trace.getLast? = some TEv.close := by
  have key : ∀ st : SrvState F,
      ((mkResult st).crashed || (mkResult st).stuck) = false →
      ((mkResult st).trace.filter TEv.isClose) = [TEv.close] ∧
      (mkResult st).trace.getLast? = some TEv.close := by
    intro st hst
    have hcs : (st.crashed || st.stuck) = false := hst
    constructor
    · show ((if st.crashed || st.stuck then st.events.map .bk
          else st.events.map .bk ++ [.close]).filter TEv.isClose) = [TEv.close]
      rw [hcs]
      simp only [Bool.false_eq_true, if_false, List.filter_append,
        filter_isClose_map_bk, List.nil_append]
      rfl
    · show (if st.crashed || st.stuck then st.events.map .bk
          else st.events.map .bk ++ [.close]).getLast? = some TEv.close
      rw [hcs]
      simp
  match msgs with
  | [] => exact key _ h
  | m :: rest =>
    rw [serve] at h ⊢
    by_cases h1 : m.typ ≠ .tversion
    · rw [if_pos h1] at h ⊢
      exact key _ h
    · rw [if_neg h1] at h ⊢
      by_cases h2 : m.version ≠ "9P2000"
      · rw [if_pos h2] at h ⊢
        exact key _ h
      · rw [if_neg h2] at h ⊢
        exact key _ h

/-- C1 witness: the amended theorem applied to the concrete attach-then-EOF
run. -/
theorem serve_closes_once_witness :
    (((serve toyB msgsAttachOnly).crashed ||
        (serve toyB msgsAttachOnly).stuck) = false) ∧
    ((serve toyB msgsAttachOnly).trace.filter TEv.isClose) = [TEv.close] ∧
    (serve toyB msgsAttachOnly).trace.getLast? = some TEv.close := by
  refine ⟨by decide, ?_⟩
  exact serve_closes_once toyB msgsAttachOnly (by decide)

/-!
### C4: partially successful walks
-/

/-- C4 (code evaluated at the failing input): a `Twalk` of `["a", "b"]`
from fid 0 to new fid 1, where `"a"` resolves and `"b"` does not, replies
`Rwalk` with exactly one Qid — but fid 1 *remains* in the fid table
(unattached): `reply` computes its partial-walk test on the reply message,
whose `Wname` is always empty, so the cleanup never fires.  When no name
resolves, the reply is `Rerror` with the walk error and fid 1 is removed,
as the claim states. -/
theorem walk_partial_leaves_new_fid :
    (serve toyB msgsWalkPartial).replies.getLast? =
      some { typ := .rwalk, tag := 2, wqid := [⟨0, 0, 2⟩] } ∧
    (aget (serve toyB msgsWalkPartial).fids 1).map (·.attached) = some false ∧
    (serve toyB msgsWalkNone).replies.getLast? =
      some { typ := .rerror, tag := 2,
             err := some (.backend "file not found") } ∧
    aget (serve toyB msgsWalkNone).fids 1 = none := by
  exact ⟨by decide, by decide, by decide, by decide⟩

/-!
### C5 and C6: open-mode checks
-/

/-- C5 counterexample: a `Topen` of a directory with mode
`OWRITE|OTRUNC = 17` is *not* refused — the handler's check compares the
whole mode byte for equality with `OWRITE`/`ORDWR`/`OEXEC`, so the extra
`OTRUNC` bit defeats it: the back-end `Open` runs and the reply is
`Ropen`, leaving the directory fid open for writing. -/
theorem open_dir_with_trunc_not_refused :
    OWRITE ||| OTRUNC = 17 ∧
    Qid.isDir (toyB.qidOf []) = true ∧
    (serve toyB msgsOpenDirTrunc).replies.getLast? =
      some { typ := .ropen, tag := 2, qid := ⟨0x80, 0, 1⟩, iounit := 8192 } ∧
    (aget (serve toyB msgsOpenDirTrunc).fids 0).map (·.isOpen) = some true := by
  exact ⟨by decide, by decide, by decide, by decide⟩

/-- C5 (amended): a `Topen` of a directory fid is refused with the
permission error — leaving the fid unopened, its record unchanged and the
back-end uncalled — exactly when the requested mode byte equals `OWRITE`,
`ORDWR` or `OEXEC`; a writable mode carrying additional flag bits (such as
`OWRITE|OTRUNC`) bypasses this refusal. -/
theorem topen_dir_exact_mode_refused {F : Type} [Inhabited F] (B : Backend F)
    (st : SrvState F) (m : Fcall)
    (id0 : Nat) (rc : Int) (fv : F) (att : Bool) (mode iou : Nat)
    (doff : Int) (didx : Nat) (dents : List (List Nat))
    (hc : st.crashed = false) (hs : st.stuck = false)
    (htyp : m.typ = .topen) (hfid : ¬ m.fid = NOFID)
    (hr : aget st.fids m.fid =
      some ⟨id0, rc, fv, att, false, mode, iou, doff, didx, dents⟩)
    (hrc : 1 ≤ rc)
    (hdir : (B.qidOf fv).isDir = true)
    (hm : m.mode = OWRITE ∨ m.mode = ORDWR ∨ m.mode = OEXEC) :
    (processMsg B st m).replies =
      st.replies ++ [{ typ := .rerror, tag := m.tag, err := some .perm }] ∧
    (processMsg B st m).events = st.events ∧
    aget (processMsg B st m).fids m.fid =
      some ⟨id0, rc, fv, att, false, mode, iou, doff, didx, dents⟩ := by
  have hguard : ((B.qidOf fv).isDir &&
      (m.mode == OWRITE || m.mode == ORDWR || m.mode == OEXEC)) = true := by
    rcases hm with h | h | h <;> simp [hdir, h, OWRITE, ORDWR, OEXEC]
  have hag1 : aget (aset st.fids m.fid
        ⟨id0, rc + 1, fv, att, false, mode, iou, doff, didx, dents⟩) m.fid =
      some ⟨id0, rc + 1, fv, att, false, mode, iou, doff, didx, dents⟩ :=
    aget_aset _ _ _ _ hr
  have hne : (rc = 0 ∧ att = true) = False :=
    eq_false (fun hx => by omega)
  have hag2 : aget (aset
        (aset st.fids m.fid ⟨id0, rc + 1, fv, att, false, mode, iou, doff, didx, dents⟩)
        m.fid ⟨id0, rc, fv, att, false, mode, iou, doff, didx, dents⟩) m.fid =
      some ⟨id0, rc, fv, att, false, mode, iou, doff, didx, dents⟩ :=
    aget_aset _ _ _ _ hag1
  simp only [processMsg, hc, hs, Bool.or_self, Bool.false_eq_true, if_false,
    initTag, htyp, initTagExisting, hfid, if_neg, hr, ne_eq, not_true_eq_false,
    reduceCtorEq, Option.some.injEq, putRec, Option.isSome_some, if_true,
    handleOpen, Option.some_bind, getRec, hag1]
  simp only [hguard, Bool.false_eq_true, if_false, if_true, replyError, reply,
    beq_self_eq_true, Bool.true_or, releaseTag, releaseFid, getRec, hag1,
    putRec, Option.isSome_some, Int.add_sub_cancel, hne, hag2]
  exact ⟨trivial, trivial, trivial⟩

/-- C5 witness: the amended refusal applied to a concrete `Topen` of a
directory fid with mode exactly `ORDWR`. -/
theorem topen_dir_exact_mode_refused_witness :
    (stC5.crashed = false ∧ stC5.stuck = false ∧ mC5.typ = .topen ∧
      ¬ mC5.fid = NOFID ∧
      aget stC5.fids mC5.fid = some ⟨0, 1, [], true, false, 0, 0, 0, 0, []⟩ ∧
      (1 : Int) ≤ 1 ∧ (toyB.qidOf []).isDir = true ∧
      (mC5.mode = OWRITE ∨ mC5.mode = ORDWR ∨ mC5.mode = OEXEC)) ∧
    ((processMsg toyB stC5 mC5).replies =
        stC5.replies ++ [{ typ := .rerror, tag := mC5.tag, err := some .perm }] ∧
      (processMsg toyB stC5 mC5).events = stC5.events ∧
      aget (processMsg toyB stC5 mC5).fids mC5.fid =
        some ⟨0, 1, [], true, false, 0, 0, 0, 0, []⟩) := by
  refine ⟨⟨rfl, rfl, rfl, by decide, by decide, by decide, by decide,
    Or.inr (Or.inl (by decide))⟩, ?_⟩
  exact topen_dir_exact_mode_refused toyB stC5 mC5 0 1 [] true 0 0 0 0 []
    rfl rfl rfl (by decide) (by decide) (by decide) (by decide)
    (Or.inr (Or.inl (by decide)))

/-- C6: `canRead` accepts exactly the access classes `OREAD`, `ORDWR`,
`OEXEC` of `mode & 3`, and a `Tread` on a fid whose open mode has access
class `OWRITE` is rejected with the permission error: the reply is
`Rerror "permission denied"`, no back-end call happens, and the fid record
is untouched. -/
theorem tread_writeonly_rejected {F : Type} [Inhabited F] (B : Backend F)
    (st : SrvState F) (m : Fcall)
    (id0 : Nat) (rc : Int) (fv : F) (att : Bool) (mode iou : Nat)
    (doff : Int) (didx : Nat) (dents : List (List Nat))
    (hc : st.crashed = false) (hs : st.stuck = false)
    (htyp : m.typ = .tread) (hfid : ¬ m.fid = NOFID)
    (hr : aget st.fids m.fid =
      some ⟨id0, rc, fv, att, true, mode, iou, doff, didx, dents⟩)
    (hrc : 1 ≤ rc)
    (hmode : mode &&& 3 = OWRITE) :
    (∀ mode' : Nat, canRead mode' = true ↔
      (mode' &&& 3 = OREAD ∨ mode' &&& 3 = ORDWR ∨ mode' &&& 3 = OEXEC)) ∧
    (processMsg B st m).replies =
      st.replies ++ [{ typ := .rerror, tag := m.tag, err := some .perm }] ∧
    (processMsg B st m).events = st.events ∧
    aget (processMsg B st m).fids m.fid =
      some ⟨id0, rc, fv, att, true, mode, iou, doff, didx, dents⟩ := by
  have hchar : ∀ mode' : Nat, canRead mode' = true ↔
      (mode' &&& 3 = OREAD ∨ mode' &&& 3 = ORDWR ∨ mode' &&& 3 = OEXEC) := by
    intro mode'
    simp [canRead, OREAD, ORDWR, OEXEC]
    tauto
  have hcr : canRead mode = false := by
    rw [canRead, hmode]
    decide
  have hag1 : aget (aset st.fids m.fid
        ⟨id0, rc + 1, fv, att, true, mode, iou, doff, didx, dents⟩) m.fid =
      some ⟨id0, rc + 1, fv, att, true, mode, iou, doff, didx, dents⟩ :=
    aget_aset _ _ _ _ hr
  refine ⟨hchar, ?_⟩
  simp only [processMsg, hc, hs, Bool.or_self, Bool.false_eq_true, if_false,
    initTag, htyp, initTagExisting, hfid, if_neg, hr, ne_eq, not_true_eq_false,
    reduceCtorEq, Option.some.injEq, putRec, Option.isSome_some, if_true,
    handleRead, Option.some_bind, getRec, hag1]
  have hne : (rc = 0 ∧ att = true) = False :=
    eq_false (fun hx => by omega)
  have hag2 : aget (aset
        (aset st.fids m.fid ⟨id0, rc + 1, fv, att, true, mode, iou, doff, didx, dents⟩)
        m.fid ⟨id0, rc, fv, att, true, mode, iou, doff, didx, dents⟩) m.fid =
      some ⟨id0, rc, fv, att, true, mode, iou, doff, didx, dents⟩ :=
    aget_aset _ _ _ _ hag1
  simp only [Bool.not_true, Bool.false_eq_true, if_false, hcr, Bool.not_false,
    if_true, replyError, reply, beq_self_eq_true, Bool.true_or, releaseTag,
    releaseFid, getRec, hag1, putRec, Option.isSome_some, Int.add_sub_cancel,
    hne, if_false, hag2]
  exact ⟨trivial, trivial, trivial⟩

/-- C6 witness: a concrete `Tread` of a fid opened with mode `OWRITE` is
answered by `Rerror "permission denied"` with no back-end call. -/
theorem tread_writeonly_rejected_witness :
    (stC6.crashed = false ∧ stC6.stuck = false ∧ mC6.typ = .tread ∧
      ¬ mC6.fid = NOFID ∧
      aget stC6.fids mC6.fid = some ⟨0, 1, [], true, true, 1, 8192, 0, 0, []⟩ ∧
      (1 : Int) ≤ 1 ∧ 1 &&& 3 = OWRITE) ∧
    ((processMsg toyB stC6 mC6).replies =
        stC6.replies ++ [{ typ := .rerror, tag := mC6.tag, err := some .perm }] ∧
      (processMsg toyB stC6 mC6).events = stC6.events ∧
      aget (processMsg toyB stC6 mC6).fids mC6.fid =
        some ⟨0, 1, [], true, true, 1, 8192, 0, 0, []⟩) := by
  refine ⟨⟨rfl, rfl, rfl, by decide, by decide, by decide, by decide⟩, ?_⟩
  exact (tread_writeonly_rejected toyB stC6 mC6 0 1 [] true 1 8192 0 0 []
    rfl rfl rfl (by decide) (by decide) (by decide) (by decide)).2

/-- C10 witness: a concrete overflowing (non-wrapping) write errors,
returns count 0 and leaves the buffer unchanged. -/
theorem bufFile_writeAt_failure_atomic_witness :
    (¬ (0 : Int) < 0 ∧ (1 : Int) < 0 + ([5, 6] : List Nat).length ∧
      (0 : Int) + ([5, 6] : List Nat).length < 2 ^ 63) ∧
    ({ maxSize := 1, buf := [] } : bufFile).WriteAt [5, 6] 0 =
      .ok ((0, some "max file size exceeded"), { maxSize := 1, buf := [] }) := by
  refine ⟨⟨by norm_num, by norm_num, by norm_num⟩, ?_⟩
  exact (bufFile_writeAt_failure_atomic { maxSize := 1, buf := [] } [5, 6] 0).2.2.2
    (by norm_num) (by norm_num) (by norm_num)
